import Mathlib

/-!
# albert: bookmark indexer and external extensions

A shallow embedding of

* `src/plugins/firefoxbookmarks/src/main.cpp` (namespace `FirefoxBookmarks`), and
* `src/plugins/externalextensions/src/externalextension.cpp` (namespace `ExternalExtensions`),

followed by theorems about the embedded functions.

Conventions.  A `QString` is a Lean `String`; a null `QString` and the empty one compare
equal in Qt, so both are `""` unless the code asks `isNull()`, where an `Option String` is
used.  Signals that are emitted are appended to a log held in the state.  Collaborators
whose code is not part of the sources read here (Qt, the core library of the launcher) are
either fields of an environment record or small models that say so in their doc comment.
-/

namespace Core

/-- What a `StandardAction` callback does when it is activated.  The lambdas of the sources
are closures over plain strings, so each is recorded by the call it makes. -/
inductive Callback where
  /-- Runs `QDesktopServices::openUrl(QUrl(url))`. -/
  | openUrl (url : String)
  /-- Runs `QProcess::startDetached(firefoxExecutable, {url})`; the executable is read from
  the captured `this` when the action runs. -/
  | startFirefox (url : String)
  /-- Runs `QApplication::clipboard()->setText(text)`. -/
  | copyToClipboard (text : String)
  /-- Runs `QProcess::startDetached(command, arguments)`. -/
  | startDetached (command : String) (arguments : List String)
  deriving DecidableEq, Repr

/-- Core::StandardAction, a label and a callback. -/
structure StandardAction where
  text : String
  action : Callback
  deriving DecidableEq, Repr

/-- Core::Indexable::WeightedKeyword. -/
structure WeightedKeyword where
  keyword : String
  weight : Nat
  deriving DecidableEq, Repr

/-- Core::StandardIndexItem, the item type the bookmark reader builds. -/
structure StandardIndexItem where
  id : String
  text : String := ""
  subtext : String := ""
  iconPath : String := ""
  indexKeywords : List WeightedKeyword := []
  actions : List StandardAction := []
  deriving DecidableEq, Repr

/-- Core::StandardItem, the item type an external extension builds. -/
structure StandardItem where
  id : String
  text : String := ""
  subtext : String := ""
  iconPath : String := ""
  actions : List StandardAction := []
  deriving DecidableEq, Repr

/-- A `shared_ptr<Core::Item>`: one of the two concrete item classes used by the sources. -/
inductive Item where
  | standardItem (i : StandardItem)
  | standardIndexItem (i : StandardIndexItem)
  deriving DecidableEq, Repr

/-- The accessor `Item::id()`. -/
def Item.id : Item → String
  | .standardItem i => i.id
  | .standardIndexItem i => i.id

/-- The accessor `Item::text()`. -/
def Item.text : Item → String
  | .standardItem i => i.text
  | .standardIndexItem i => i.text

/-- The accessor `Item::subtext()`. -/
def Item.subtext : Item → String
  | .standardItem i => i.subtext
  | .standardIndexItem i => i.subtext

/-- Modelled from the spec: `Core::Query` (query.h is not among the sources).  It carries the
typed-in search term and collects `(item, score)` matches; the score is a C++ `short`. -/
structure Query where
  searchTerm : String
  matchList : List (Item × Int) := []
  deriving DecidableEq, Repr

/-- Modelled from the spec: `Query::addMatches(begin, end)` hands the given range of matches
to the query, after the ones it already holds. -/
def Query.addMatches (q : Query) (results : List (Item × Int)) : Query :=
  { q with matchList := q.matchList ++ results }

/-- Modelled from the spec: `Core::OfflineIndex` (offlineindex.h is not among the sources).
Section 4.3 of the specification: `add` inserts an item, `clear` returns the index to empty,
`setFuzzy` toggles the mode flag.  `items` records the items added since the last `clear`,
in the order of the `add` calls. -/
structure OfflineIndex where
  items : List StandardIndexItem := []
  fuzzy : Bool := false
  deriving DecidableEq, Repr

/-- Modelled from the spec: `OfflineIndex::clear()`, "returns the index to empty". -/
def OfflineIndex.clear (ix : OfflineIndex) : OfflineIndex :=
  { ix with items := [] }

/-- Modelled from the spec: `OfflineIndex::add(item)`, "inserts the item". -/
def OfflineIndex.add (ix : OfflineIndex) (item : StandardIndexItem) : OfflineIndex :=
  { ix with items := ix.items ++ [item] }

/-- Modelled from the spec: `OfflineIndex::setFuzzy(bool)`, "toggles fuzzy-matching mode for
subsequent searches; takes effect immediately, no rebuild required". -/
def OfflineIndex.setFuzzy (ix : OfflineIndex) (fuzzy : Bool) : OfflineIndex :=
  { ix with fuzzy := fuzzy }

/-- The matches a handler added: what `after` holds beyond the matches of `before`. -/
def Query.added (before after : Query) : List (Item × Int) :=
  after.matchList.drop before.matchList.length

end Core

namespace Qt

/-- A `QVariant` as far as the settings of the sources use it. -/
inductive QVariant where
  | bool (b : Bool)
  | string (s : String)
  deriving DecidableEq, Repr

/-- The conversion `QVariant::toBool()`: a string is true unless it is empty, "0" or "false". -/
def QVariant.toBool : QVariant → Bool
  | .bool b => b
  | .string s => !(s == "" || s == "0" || String.mk (s.data.map Char.toLower) == "false")

/-- The conversion `QVariant::toString()`. -/
def QVariant.toString : QVariant → String
  | .bool b => if b then "true" else "false"
  | .string s => s

/-- A `QSettings` store: keys (with their group path) and values. -/
abbrev QSettings := List (String × QVariant)

/-- The lookup `QSettings::contains(key)`. -/
def QSettings.contains (s : QSettings) (key : String) : Bool :=
  s.any (fun kv => kv.1 == key)

/-- The lookup `QSettings::value(key)`, `none` for an invalid `QVariant`. -/
def QSettings.value (s : QSettings) (key : String) : Option QVariant :=
  (s.find? (fun kv => kv.1 == key)).map Prod.snd

/-- The update `QSettings::setValue(key, value)`: the key then holds exactly this value. -/
def QSettings.setValue (s : QSettings) (key : String) (v : QVariant) : QSettings :=
  (key, v) :: s.filter (fun kv => !(kv.1 == key))

/-- The slice `QString::left(n)`: the whole string when `n` is negative or not smaller than
the size. -/
def left (s : String) (n : Int) : String :=
  if n < 0 ∨ (s.length : Int) ≤ n then s else String.mk (s.data.take n.toNat)

/-- The formatting `QString("%1").arg(n)` of a container size. -/
def argNat (n : Nat) : String := toString n

/-- A `QJsonValue`.  The payload of a number is never read by the sources, so a number is
recorded by an integer tag only. -/
inductive QJsonValue where
  | null
  | bool (b : Bool)
  | double (d : Int)
  | string (s : String)
  | array (a : List QJsonValue)
  | object (o : List (String × QJsonValue))
  | undefined

/-- A `QJsonObject`: its members, key and value. -/
abbrev QJsonObject := List (String × QJsonValue)

/-- A `QJsonArray`. -/
abbrev QJsonArray := List QJsonValue

/-- The test `QJsonValue::isUndefined()`. -/
def QJsonValue.isUndefined : QJsonValue → Bool
  | .undefined => true
  | _ => false

/-- The test `QJsonValue::isString()`. -/
def QJsonValue.isString : QJsonValue → Bool
  | .string _ => true
  | _ => false

/-- The test `QJsonValue::isArray()`. -/
def QJsonValue.isArray : QJsonValue → Bool
  | .array _ => true
  | _ => false

/-- The test `QJsonValue::isObject()`. -/
def QJsonValue.isObject : QJsonValue → Bool
  | .object _ => true
  | _ => false

/-- The conversion `QJsonValue::toString()`: a null `QString` unless the value is a string. -/
def QJsonValue.toString : QJsonValue → String
  | .string s => s
  | _ => ""

/-- The conversion `QJsonValue::toArray()`: an empty array unless the value is an array. -/
def QJsonValue.toArray : QJsonValue → QJsonArray
  | .array a => a
  | _ => []

/-- The conversion `QJsonValue::toObject()`: an empty object unless the value is an object. -/
def QJsonValue.toObject : QJsonValue → QJsonObject
  | .object o => o
  | _ => []

/-- The member of `o` stored under `key`, if there is one. -/
def QJsonObject.find (o : QJsonObject) (key : String) : Option QJsonValue :=
  (List.find? (fun kv => kv.1 == key) o).map Prod.snd

/-- The test `QJsonObject::contains(key)`. -/
def QJsonObject.contains (o : QJsonObject) (key : String) : Bool :=
  (QJsonObject.find o key).isSome

/-- The value read through `QJsonObject::operator[](key)` on a non-const object, the overload
every subscript of the sources selects (their objects are non-const locals or come through a
non-const pointer).  For a missing key this overload inserts a `Null` member and refers to
it, so the value read is `null`, never `undefined`.  The inserted member itself is not
recorded: after a subscript the sources never test the same object for emptiness or for the
presence of a key, and never iterate it. -/
def QJsonObject.subscript (o : QJsonObject) (key : String) : QJsonValue :=
  (QJsonObject.find o key).getD .null

/-- A `QJsonDocument` returned by `QJsonDocument::fromJson`: null for bytes that are not a
JSON document, else the top-level array or object. -/
inductive QJsonDocument where
  | null
  | ofArray (a : QJsonArray)
  | ofObject (o : QJsonObject)

/-- The test `QJsonDocument::isNull()`. -/
def QJsonDocument.isNull : QJsonDocument → Bool
  | .null => true
  | _ => false

/-- The accessor `QJsonDocument::object()`: an empty object when the document holds an array. -/
def QJsonDocument.object : QJsonDocument → QJsonObject
  | .ofObject o => o
  | _ => []

/-- The value `QProcess::exitStatus()`. -/
inductive ExitStatus where
  | NormalExit
  | CrashExit
  deriving DecidableEq, Repr

/-- What a finished `QProcess` reports. -/
structure QProcess where
  exitStatus : ExitStatus
  exitCode : Int
  standardOutput : String
  deriving DecidableEq, Repr

end Qt

namespace FirefoxBookmarks

open Core Qt

/-- The configuration key `CFG_PROFILE`. -/
def CFG_PROFILE : String := "profile"
/-- The configuration key `CFG_FUZZY`. -/
def CFG_FUZZY : String := "fuzzy"
/-- The default `DEF_FUZZY`. -/
def DEF_FUZZY : Bool := false
/-- The configuration key `CFG_USE_FIREFOX`. -/
def CFG_USE_FIREFOX : String := "openWithFirefox"
/-- The default `DEF_USE_FIREFOX`. -/
def DEF_USE_FIREFOX : Bool := false
/-- The debounce interval `UPDATE_DELAY`, in milliseconds. -/
def UPDATE_DELAY : Nat := 60000
/-- The limit `USHRT_MAX` of `<climits>`. -/
def USHRT_MAX : Nat := 65535
/-- The identifier passed to `Core::Extension` by the constructor. -/
def extensionId : String := "org.albert.extension.firefoxbookmarks"

/-- Collaborators of the bookmark extension that are not part of the sources read here. -/
structure Env where
  /-- The case folding `QString::toLower()`. -/
  toLower : String → String
  /-- The read operation `OfflineIndex::search(term)`. -/
  search : OfflineIndex → String → List StandardIndexItem
  /-- The lookup `XdgIconLookup::themeIconPath(name)`. -/
  themeIconPath : String → String
  /-- The accessor `QUrl(url).host()`. -/
  urlHost : String → String
  /-- The accessor `QUrl(url).topLevelDomain()`. -/
  topLevelDomain : String → String
  /-- The path `QFileInfo(iniPath).dir().absoluteFilePath(path)`. -/
  absoluteFilePath : String → String → String
  /-- Whether `QFileSystemWatcher::addPath(path)` accepts the path (the file exists). -/
  watchable : String → Bool

/-- One row of the bookmark query, in the column order of its `SELECT`:
`b1.guid, p.title, p.url, b2.title`. -/
structure BookmarkRow where
  guid : String
  title : String
  url : String
  parent : String
  deriving DecidableEq, Repr

/-- The accessor `result.value(i).toString()` on the current row. -/
def BookmarkRow.value (r : BookmarkRow) : Nat → String
  | 0 => r.guid
  | 1 => r.title
  | 2 => r.url
  | 3 => r.parent
  | _ => ""

/-- What the item source does when a rebuild reads it. -/
inductive Database where
  /-- The call `database.open()` fails. -/
  | cannotOpen
  /-- The call `result.exec(...)` fails. -/
  | queryFails
  /-- The query succeeds and `result.next()` walks these rows. -/
  | rows (rs : List BookmarkRow)
  deriving DecidableEq, Repr

/-- The `QFutureWatcher` member together with the `QFuture` it watches. -/
structure FutureWatcher where
  /-- The flag `futureWatcher.future().isRunning()`: set from `QtConcurrent::run` until the
  task reports that it has finished. -/
  running : Bool := false
  /-- The value `futureWatcher.future().result()` of a finished future. -/
  result : List StandardIndexItem := []
  /-- The `finished` signal has been posted to the watcher and not delivered yet. -/
  finishedPending : Bool := false
  /-- The `finished` signal is connected to `finishIndexing`. -/
  connected : Bool := false
  deriving DecidableEq, Repr

/-- The class `FirefoxBookmarksPrivate` (the config widget and the delay timer are left out). -/
structure FirefoxBookmarksPrivate where
  openWithFirefox : Bool := false
  firefoxExecutable : String := ""
  profilesIniPath : String := ""
  currentProfileId : String := ""
  /-- The list `databaseWatcher.files()`. -/
  databaseWatcher : List String := []
  index : List StandardIndexItem := []
  offlineIndex : OfflineIndex := {}
  futureWatcher : FutureWatcher := {}
  deriving DecidableEq, Repr

/-- The extension object `q` with its private part `d` and what its methods act on. -/
structure Extension where
  d : FirefoxBookmarksPrivate := {}
  /-- Every `emit q->statusInfo(text)`, oldest first. -/
  statusInfo : List String := []
  /-- The application settings `QSettings(qApp->applicationName())`. -/
  settings : QSettings := []
  /-- The name set on the extension's `QSqlDatabase` connection. -/
  databaseName : String := ""
  /-- The number of `indexFirefoxBookmarks` tasks handed to `QtConcurrent::run` that have
  not finished yet (bookkeeping of the thread pool, not a field of the class). -/
  rebuildsInFlight : Nat := 0
  deriving DecidableEq, Repr

/-- The method `FirefoxBookmarksPrivate::startIndexing()`. -/
def startIndexing (x : Extension) : Extension :=
  -- Never run concurrent
  if x.d.futureWatcher.running then x
  else
    { x with
      -- disconnect, connect finished to finishIndexing, setFuture(QtConcurrent::run(...))
      d := { x.d with
        futureWatcher := { running := true, result := [], finishedPending := false,
                           connected := true } }
      rebuildsInFlight := x.rebuildsInFlight + 1
      statusInfo := x.statusInfo ++ ["Indexing bookmarks ..."] }

/-- The method `FirefoxBookmarksPrivate::finishIndexing()`. -/
def finishIndexing (x : Extension) : Extension :=
  -- Get the thread results
  let index := x.d.futureWatcher.result
  -- Rebuild the offline index
  let offlineIndex := index.foldl OfflineIndex.add x.d.offlineIndex.clear
  { x with
    d := { x.d with index := index, offlineIndex := offlineIndex }
    statusInfo := x.statusInfo ++ [argNat index.length ++ " bookmarks indexed."] }

/-- The icon chosen by `indexFirefoxBookmarks`: the first theme icon found, else ":favicon". -/
def bookmarkIcon (env : Env) : String :=
  let icon := env.themeIconPath "www"
  let icon := if icon.isEmpty then env.themeIconPath "web-browser" else icon
  let icon := if icon.isEmpty then env.themeIconPath "emblem-web" else icon
  if icon.isEmpty then ":favicon" else icon

/-- The body of the `while (result.next())` loop of `indexFirefoxBookmarks`: the item built
from one row. -/
def bookmarkItem (env : Env) (openWithFirefox : Bool) (icon : String) (r : BookmarkRow) :
    StandardIndexItem :=
  -- Url will be used more often
  let urlstr := r.value 2
  let text := r.value 1
  let host := env.urlHost urlstr
  let weightedKeywords : List WeightedKeyword :=
    [ ⟨text, USHRT_MAX⟩,
      ⟨left host ((host.length : Int) - ((env.topLevelDomain urlstr).length : Int)),
        USHRT_MAX / 2⟩,
      ⟨r.value 2, USHRT_MAX / 4⟩ ]
  let actionDefault : StandardAction := ⟨"Open in default browser", .openUrl urlstr⟩
  let actionFirefox : StandardAction := ⟨"Open in firefox", .startFirefox urlstr⟩
  let action : StandardAction := ⟨"Copy url to clipboard", .copyToClipboard urlstr⟩
  -- Set the order of the actions
  let actions :=
    (if openWithFirefox then [actionFirefox, actionDefault]
     else [actionDefault, actionFirefox]) ++ [action]
  { id := r.value 0, text := text, subtext := urlstr, iconPath := icon,
    indexKeywords := weightedKeywords, actions := actions }

/-- The method `FirefoxBookmarksPrivate::indexFirefoxBookmarks()`, run on the item source. -/
def indexFirefoxBookmarks (env : Env) (d : FirefoxBookmarksPrivate) (db : Database) :
    List StandardIndexItem :=
  match db with
  | .cannotOpen => []
  | .queryFails => []
  | .rows rs => rs.map (bookmarkItem env d.openWithFirefox (bookmarkIcon env))

/-- The method `Extension::handleQuery(query)`. -/
def handleQuery (env : Env) (x : Extension) (query : Query) : Query :=
  -- Search for matches
  let indexables := env.search x.d.offlineIndex (env.toLower query.searchTerm)
  -- Add results to query.
  let results : List (Item × Int) := indexables.map (fun item => (Item.standardIndexItem item, 0))
  query.addMatches results

/-- The method `Extension::changeFuzzyness(fuzzy)`. -/
def changeFuzzyness (x : Extension) (fuzzy : Bool) : Extension :=
  { x with
    d := { x.d with offlineIndex := x.d.offlineIndex.setFuzzy fuzzy }
    settings := x.settings.setValue (extensionId ++ "/" ++ CFG_FUZZY) (.bool fuzzy) }

/-- The method `Extension::changeOpenPolicy(useFirefox)`. -/
def changeOpenPolicy (x : Extension) (useFirefox : Bool) : Extension :=
  let x := { x with
    d := { x.d with openWithFirefox := useFirefox }
    settings := x.settings.setValue (extensionId ++ "/" ++ CFG_USE_FIREFOX) (.bool useFirefox) }
  startIndexing x

/-- The list `QSettings::childGroups()` of an ini store whose keys are written "Group/Key":
the distinct group names of the keys, in the order of the store. -/
def childGroups (ini : QSettings) : List String :=
  (ini.filterMap (fun kv =>
    match kv.1.data.span (fun c => c != '/') with
    | (_, []) => none
    | (g, _ :: _) => some (String.mk g))).eraseDups

/-- The method `Extension::setProfile(profile)`, reading the given `profiles.ini`. -/
def setProfile (env : Env) (profilesIni : QSettings) (x : Extension) (profile : String) :
    Extension :=
  let x := { x with d := { x.d with currentProfileId := profile } }
  -- Check if profile id is in profiles file
  if !(childGroups profilesIni).contains profile then x
  -- Check if the profile contains a path key
  else if !profilesIni.contains (profile ++ "/Path") then x
  else
    let path := ((profilesIni.value (profile ++ "/Path")).map QVariant.toString).getD ""
    let isRelative := profilesIni.contains (profile ++ "/IsRelative")
      && ((profilesIni.value (profile ++ "/IsRelative")).map QVariant.toBool).getD false
    -- Get the correct absolute profile path
    let profilePath := if isRelative then env.absoluteFilePath x.d.profilesIniPath path else path
    -- Build the database path
    let dbPath := profilePath ++ "/places.sqlite"
    -- Set the databases path, set a file system watcher on the database
    let x := { x with
      databaseName := dbPath
      d := { x.d with databaseWatcher := if env.watchable dbPath then [dbPath] else [] } }
    let x := startIndexing x
    { x with settings := x.settings.setValue (extensionId ++ "/" ++ CFG_PROFILE) (.string profile) }

/-- The worker thread returns from `indexFirefoxBookmarks`: the future stops running, holds
the result, and posts `finished` to the watcher. -/
def workerFinished (env : Env) (db : Database) (x : Extension) : Extension :=
  if x.d.futureWatcher.running then
    { x with
      d := { x.d with
        futureWatcher := { x.d.futureWatcher with
          running := false, result := indexFirefoxBookmarks env x.d db,
          finishedPending := true } }
      rebuildsInFlight := x.rebuildsInFlight - 1 }
  else x

/-- The event loop delivers a pending `finished` signal, which runs the connected slot. -/
def deliverFinished (x : Extension) : Extension :=
  if x.d.futureWatcher.finishedPending then
    let x := { x with d := { x.d with futureWatcher :=
      { x.d.futureWatcher with finishedPending := false } } }
    if x.d.futureWatcher.connected then finishIndexing x else x
  else x

/-- The events that drive the extension after its construction. -/
inductive Event where
  /-- The delay timer times out and calls `startIndexing`. -/
  | timeout
  | setProfile (profilesIni : QSettings) (profile : String)
  | changeFuzzyness (fuzzy : Bool)
  | changeOpenPolicy (useFirefox : Bool)
  | workerFinished (db : Database)
  | deliverFinished

/-- One step of the extension. -/
def step (env : Env) (x : Extension) : Event → Extension
  | .timeout => startIndexing x
  | .setProfile ini p => setProfile env ini x p
  | .changeFuzzyness b => changeFuzzyness x b
  | .changeOpenPolicy b => changeOpenPolicy x b
  | .workerFinished db => workerFinished env db x
  | .deliverFinished => deliverFinished x

/-- The state of the extension when its constructor has loaded the settings and no rebuild
has been requested yet: nothing indexed, no future running. -/
def constructed (profile : String) (fuzzy openWithFirefox : Bool) (firefoxExecutable iniPath : String)
    (settings : QSettings) : Extension :=
  { d := { openWithFirefox := openWithFirefox, firefoxExecutable := firefoxExecutable,
           profilesIniPath := iniPath, currentProfileId := profile,
           offlineIndex := ({} : OfflineIndex).setFuzzy fuzzy },
    settings := settings }

/-- The assignment `lhs = rhs` to a variable that already holds a value: the old value is
lost. -/
def assigned {α : Type} (_old new : α) : α := new

/-- The block "If the id does not exist find a proper default" of the constructor: the value
of `d->currentProfileId` after it, given the value loaded from the settings.  A null
`QString` is `none`. -/
def defaultProfile (profilesIni : QSettings) (currentProfileId : String) : Option String :=
  if !profilesIni.contains currentProfileId then
    let current : Option String := none
    let ids := childGroups profilesIni
    match ids with
    | [] => current
    | first :: _ =>
      -- Use the last used profile
      let current :=
        if current.isNone then
          ids.foldl (fun cur id =>
            if profilesIni.contains (id ++ "/Default")
                && ((profilesIni.value (id ++ "/Default")).map QVariant.toBool).getD false
            then some id else cur) current
        else current
      -- Use the default profile
      let current := if current.isNone && ids.contains "default" then some "default" else current
      -- Use the first
      assigned current (some first)
  else some currentProfileId

/-- What the constructor of the extension finds on the machine. -/
structure Installation where
  /-- The test `db.isValid()` of the added "QSQLITE" connection. -/
  dbValid : Bool
  /-- The test `db.driver()->hasFeature(QSqlDriver::Transactions)`. -/
  dbTransactions : Bool
  /-- The result of `QStandardPaths::findExecutable("firefox")`. -/
  firefoxExecutable : String
  /-- The result of locating ".mozilla/firefox/profiles.ini" under the home location. -/
  profilesIniHome : String
  /-- The result of locating "Mozilla/firefox/profiles.ini" under the data location. -/
  profilesIniData : String
  /-- The application settings. -/
  settings : QSettings
  /-- The content of the `profiles.ini` that was located. -/
  profilesIni : QSettings

/-- The constructor `Extension::Extension()`; an error is the `QString` thrown.  (The first
three messages have no `%1` for `arg` to fill, so they are thrown as written.)  The timer
and the signal connections it sets up last are the events of `step`. -/
def Extension.new (env : Env) (m : Installation) : Except String Extension :=
  -- Add a sqlite database connection for this extension, check requirements
  if !m.dbValid then .error "[%s] Firefox executable not found."
  else if !m.dbTransactions then .error "[%s] Firefox executable not found."
  -- Find firefox executable
  else if m.firefoxExecutable.isEmpty then .error "[%s] Firefox executable not found."
  else
    -- Locate profiles ini
    let profilesIniPath :=
      if m.profilesIniHome.isEmpty then m.profilesIniData else m.profilesIniHome
    if profilesIniPath.isEmpty then
      .error ("[" ++ extensionId ++ "] Could not locate profiles.ini.")
    else
      -- Load the settings
      let currentProfileId :=
        ((m.settings.value (extensionId ++ "/" ++ CFG_PROFILE)).map QVariant.toString).getD ""
      let fuzzy :=
        ((m.settings.value (extensionId ++ "/" ++ CFG_FUZZY)).map QVariant.toBool).getD DEF_FUZZY
      let openWithFirefox :=
        ((m.settings.value (extensionId ++ "/" ++ CFG_USE_FIREFOX)).map QVariant.toBool).getD
          DEF_USE_FIREFOX
      let x := constructed currentProfileId fuzzy openWithFirefox m.firefoxExecutable
        profilesIniPath m.settings
      -- If the id does not exist find a proper default
      let currentProfileId := (defaultProfile m.profilesIni currentProfileId).getD ""
      -- Set the profile
      .ok (setProfile env m.profilesIni x currentProfileId)

/-- The states the extension can be in: a constructed state followed by any events. -/
inductive Reachable (env : Env) : Extension → Prop where
  | init (profile : String) (fuzzy openWithFirefox : Bool) (exe iniPath : String)
      (settings : QSettings) :
      Reachable env (constructed profile fuzzy openWithFirefox exe iniPath settings)
  | next (x : Extension) (e : Event) : Reachable env x → Reachable env (step env x e)

/-- The rebuild bookkeeping agrees with the future: one task in flight exactly while the
future is running. -/
def InFlightInv (x : Extension) : Prop :=
  x.rebuildsInFlight = if x.d.futureWatcher.running then 1 else 0

/-- A whole rebuild seen from the caller: request it, let the worker read the item source,
then let the event loop run `finishIndexing`. -/
def rebuild (env : Env) (db : Database) (x : Extension) : Extension :=
  deliverFinished (workerFinished env db (startIndexing x))

/-- A small environment on which the definitions can be evaluated: ASCII case folding, a
search that returns the items whose text starts with the term, no theme icons. -/
def sampleEnv : Env where
  toLower := fun s => String.mk (s.data.map Char.toLower)
  search := fun ix term => ix.items.filter (fun i => term.data.isPrefixOf i.text.data)
  themeIconPath := fun _ => ""
  urlHost := fun url => url
  topLevelDomain := fun _ => ""
  absoluteFilePath := fun _ path => path
  watchable := fun _ => true

/-- A bookmark item used in examples. -/
def sampleItem : StandardIndexItem :=
  bookmarkItem sampleEnv false ":favicon" ⟨"g1", "example", "example.org", "toolbar"⟩

/-- An idle extension that holds the generation `[sampleItem]`. -/
def holdingOne : Extension :=
  { d := { index := [sampleItem], offlineIndex := { items := [sampleItem] } },
    statusInfo := ["1 bookmarks indexed."] }

/-- A `profiles.ini` with two profiles: the first listed has no "Default" entry, the second
is marked as the default one. -/
def sampleIni : QSettings :=
  [ ("Profile0/Name", .string "work"),
    ("Profile0/IsRelative", .string "1"),
    ("Profile0/Path", .string "abcd.work"),
    ("Profile1/Name", .string "default"),
    ("Profile1/IsRelative", .string "1"),
    ("Profile1/Path", .string "wxyz.default"),
    ("Profile1/Default", .string "1") ]

/-- A machine with a usable database driver, firefox, the sample `profiles.ini` and no
persisted settings. -/
def sampleInstallation : Installation where
  dbValid := true
  dbTransactions := true
  firefoxExecutable := "/usr/bin/firefox"
  profilesIniHome := "/home/user/.mozilla/firefox/profiles.ini"
  profilesIniData := ""
  settings := []
  profilesIni := sampleIni

/-- A bookmark row used in examples: its url and the name of its parent folder differ. -/
def sampleRow : BookmarkRow :=
  ⟨"g1", "example", "example.org", "toolbar"⟩

end FirefoxBookmarks

namespace ExternalExtensions

open Core Qt

/-- The interface identifier `EXTERNAL_EXTENSION_IID`. -/
def EXTERNAL_EXTENSION_IID : String := "org.albert.extension.external/v2.0"

/-- A `std::map<QString, QString>`: its entries, one per key. -/
abbrev Variables := List (String × String)

/-- The assignment `variables[key] = value`. -/
def Variables.assign (m : Variables) (key value : String) : Variables :=
  if List.any m (fun kv => kv.1 == key) then
    List.map (fun kv => if kv.1 == key then (key, value) else kv) m
  else m ++ [(key, value)]

/-- The call `variables->emplace(key, value)`: nothing happens when the key is present. -/
def Variables.emplace (m : Variables) (key value : String) : Variables :=
  if List.any m (fun kv => kv.1 == key) then m else m ++ [(key, value)]

/-- Collaborators of an external extension that are not part of the sources read here. -/
structure Host where
  /-- Runs the program at a path with the variables added to its environment, and waits
  for it to finish. -/
  run : String → Variables → QProcess
  /-- The parser `QJsonDocument::fromJson`. -/
  fromJson : String → QJsonDocument
  /-- Empty input is not a JSON document. -/
  fromJson_empty : fromJson "" = QJsonDocument.null
  /-- The text "offset: message" of the `QJsonParseError` for the given bytes. -/
  parseError : String → String
  /-- The lookup `XdgIconLookup::themeIconPath(name)`, `none` for a null `QString`. -/
  themeIconPath : String → Option String

/-- The function `runProcess`: the standard output, or the error string. -/
def runProcess (env : Host) (path : String) (vars : Variables) : Except String String :=
  let process := env.run path vars
  if process.exitStatus ≠ ExitStatus.NormalExit then .error "Process crashed."
  else if process.exitCode ≠ 0 then .error ("Exit code is " ++ toString process.exitCode)
  else .ok process.standardOutput

/-- The function `parseJsonObject`: the parsed object, or the error string. -/
def parseJsonObject (env : Host) (json : String) : Except String QJsonObject :=
  -- Parse stdout
  let document := env.fromJson json
  if document.isNull then .error ("Invalid JSON at " ++ env.parseError json)
  else
    let object := document.object
    if object.isEmpty then .error "Expected json object, but received an array."
    else .ok object

/-- The outcome of `saveVariables`: the returned flag and its three in-out arguments. -/
structure Saved where
  ok : Bool
  object : QJsonObject
  vars : Variables
  errorString : String

/-- The function `saveVariables`. -/
def saveVariables (object : QJsonObject) (_vars : Variables) (errorString : String) :
    Saved :=
  -- variables->clear()
  let vars : Variables := []
  if !object.contains "variables" then ⟨true, object, vars, errorString⟩
  else if !(object.subscript "variables").isObject then
    ⟨false, object, vars, "'variables' is not a JSON object"⟩
  else
    let object := (object.subscript "variables").toObject
    let vars := List.foldl
      (fun (m : Variables) (kv : String × QJsonValue) =>
        if kv.2.isString then m.emplace kv.1 kv.2.toString else m)
      vars object
    ⟨true, object, vars, errorString⟩

/-- The fields of the class `ExternalExtension`. -/
structure ExternalExtension where
  id : String
  path_ : String
  variables_ : Variables := []
  trigger_ : String := ""
  name_ : String := ""
  version_ : String := ""
  author_ : String := ""
  deriving DecidableEq, Repr

/-- The first block of the constructor, "Get the metadata": run the program with
`ALBERT_OP=METADATA`, parse its output, check the interface id, read the optional data.
An error is the text of the `QString` thrown.  The list `dependencies` that the block fills
last is a local of the constructor that nothing reads, so it is left out. -/
def getMetadata (env : Host) (path id : String) : Except String ExternalExtension :=
  let variables_ := Variables.assign [] "ALBERT_OP" "METADATA"
  match runProcess env path variables_ with
  | .error errorString => .error ("Getting metadata failed: " ++ errorString ++ " (" ++ path ++ ")")
  | .ok out =>
    -- Parse stdout
    match parseJsonObject env out with
    | .error errorString =>
      .error ("Getting metadata failed: " ++ errorString ++ " (" ++ path ++ ")")
    | .ok object =>
      -- Check for a sane interface ID (IID)
      if (object.subscript "iid").isUndefined then
        .error ("Getting metadata failed: Does not contain an interface id. (" ++ path ++ ")")
      else
        let iid := (object.subscript "iid").toString
        if iid ≠ EXTERNAL_EXTENSION_IID then
          .error ("Getting metadata failed: Interface id '" ++ iid ++ "' does not match '"
            ++ EXTERNAL_EXTENSION_IID ++ "'. (" ++ path ++ ")")
        else
          -- Get opional data
          let val := object.subscript "trigger"
          let trigger_ := if val.isString then val.toString else ""
          let val := object.subscript "name"
          let name_ := if val.isString then val.toString else id
          let val := object.subscript "version"
          let version_ := if val.isString then val.toString else "N/A"
          let val := object.subscript "author"
          let author_ := if val.isString then val.toString else "N/A"
          .ok { id := id, path_ := path, variables_ := variables_, trigger_ := trigger_,
                name_ := name_, version_ := version_, author_ := author_ }

/-- The second block of the constructor, "Initialize the extension". -/
def initializeExtension (env : Host) (x : ExternalExtension) : Except String ExternalExtension :=
  let x := { x with variables_ := x.variables_.assign "ALBERT_OP" "INITIALIZE" }
  match runProcess env x.path_ x.variables_ with
  | .error errorString =>
    .error ("Initialization failed: " ++ errorString ++ " (" ++ x.path_ ++ ")")
  | .ok out =>
    if out.isEmpty then .ok x
    else
      match parseJsonObject env out with
      | .error errorString =>
        .error ("Initialization failed: " ++ errorString ++ " (" ++ x.path_ ++ ")")
      | .ok object =>
        -- Finally save the variables, if any (a failure is only warned about)
        .ok { x with variables_ := (saveVariables object x.variables_ "").vars }

/-- The constructor `ExternalExtension::ExternalExtension(path, id)`. -/
def ExternalExtension.new (env : Host) (path id : String) : Except String ExternalExtension :=
  match getMetadata env path id with
  | .error e => .error e
  | .ok x => initializeExtension env x

/-- The action built from one element of an item's "actions" array. -/
def buildAction (value : QJsonValue) : StandardAction :=
  let object := value.toObject
  let command := (object.subscript "command").toString
  let arguments := (object.subscript "arguments").toArray.map QJsonValue.toString
  { text := (object.subscript "name").toString, action := .startDetached command arguments }

/-- The body of the loop over "items" in `handleQuery`: `none` when the element is skipped
(`continue`), else the item built from it.  The action vector is moved into the item when a
round is over, so every round starts with an empty one. -/
def buildItem (env : Host) (itemValue : QJsonValue) : Option StandardItem :=
  if !itemValue.isObject then none
  else
    let object := itemValue.toObject
    -- Build the item from the json object
    let iconPath :=
      match env.themeIconPath (object.subscript "icon").toString with
      | some p => p
      | none =>
        match env.themeIconPath "unknown" with
        | some p => p
        | none => ":unknown"
    -- Build the actions
    let standardActionVector := (object.subscript "actions").toArray.map buildAction
    some { id := (object.subscript "id").toString,
           text := (object.subscript "name").toString,
           subtext := (object.subscript "description").toString,
           iconPath := iconPath,
           actions := standardActionVector }

/-- The method `ExternalExtension::handleQuery(query)`: the extension (its variables change)
and the query afterwards. -/
def handleQuery (env : Host) (x : ExternalExtension) (query : Query) :
    ExternalExtension × Query :=
  -- Run the process
  let x := { x with variables_ :=
    (x.variables_.assign "ALBERT_OP" "QUERY").assign "ALBERT_QUERY" query.searchTerm }
  match runProcess env x.path_ x.variables_ with
  | .error _ => (x, query)
  | .ok out =>
    -- Parse stdout
    match parseJsonObject env out with
    | .error _ => (x, query)
    | .ok object =>
      if out.isEmpty then (x, query)
      else
        -- Save the variables, if any
        let saved := saveVariables object x.variables_ ""
        let x := { x with variables_ := saved.vars }
        let object := saved.object
        if !saved.ok then (x, query)
        -- Check existance of items
        else if !object.contains "items" then (x, query)
        -- Check type of items
        else if !(object.subscript "items").isArray then (x, query)
        else
          -- Iterate over the results
          let results : List (Item × Int) :=
            (object.subscript "items").toArray.filterMap
              (fun itemValue => (buildItem env itemValue).map
                (fun standardItem => (Item.standardItem standardItem, 0)))
          (x, query.addMatches results)

/-- The string stored in `o` under `key`: empty when the member is missing or is not a JSON
string. -/
def stringMember (o : QJsonObject) (key : String) : String :=
  match o.find key with
  | some (.string s) => s
  | _ => ""

/-- The text a sample program prints: one with two well-formed items around a number, one
whose only top-level member is "variables", one with sound metadata. -/
def sampleOutput (path : String) : String :=
  if path = "items" then
    "\x7b\"items\": [\x7b\"id\": \"a\", \"name\": \"A\", \"description\": \"first\"\x7d, 7, \x7b\"id\": \"b\"\x7d]\x7d"
  else if path = "variables" then
    "\x7b\"variables\": \x7b\"items\": [\x7b\x7d]\x7d\x7d"
  else if path = "metadata" then
    "\x7b\"iid\": \"org.albert.extension.external/v2.0\", \"name\": \"Sample\"\x7d"
  else ""

/-- The documents of the sample texts; every other text counts as invalid. -/
def sampleFromJson (json : String) : QJsonDocument :=
  if json = sampleOutput "items" then
    .ofObject [("items", .array [
      .object [("description", .string "first"), ("id", .string "a"), ("name", .string "A")],
      .double 7,
      .object [("id", .string "b")]])]
  else if json = sampleOutput "variables" then
    .ofObject [("variables", .object [("items", .array [.object []])])]
  else if json = sampleOutput "metadata" then
    .ofObject [("iid", .string "org.albert.extension.external/v2.0"), ("name", .string "Sample")]
  else .null

/-- A small environment on which the definitions can be evaluated: every program exits
normally with code 0 and prints its sample text; there are no theme icons. -/
def sampleHost : Host where
  run := fun path _ => ⟨ExitStatus.NormalExit, 0, sampleOutput path⟩
  fromJson := sampleFromJson
  fromJson_empty := by rfl
  parseError := fun _ => "0: illegal value"
  themeIconPath := fun _ => none

/-- An environment in which every program exits normally with code 0 and prints `out`, a
text whose JSON document is `doc`; every other text counts as invalid. -/
def hostPrinting (out : String) (doc : QJsonDocument) : Host where
  run := fun _ _ => ⟨ExitStatus.NormalExit, 0, out⟩
  fromJson := fun json => if json = "" then .null else if json = out then doc else .null
  fromJson_empty := if_pos rfl
  parseError := fun _ => "0: illegal value"
  themeIconPath := fun _ => none

/-- The strings of a JSON object: its members whose value is a JSON string, in order. -/
def stringMembers (o : QJsonObject) : Variables :=
  o.filterMap (fun kv =>
    match kv.2 with
    | .string s => some (kv.1, s)
    | _ => none)

/-- A QUERY response with one well-formed item and a "variables" object. -/
def responseWithVariables : QJsonObject :=
  [ ("items", .array [.object [("id", .string "a")]]),
    ("variables", .object [("k", .string "v"), ("n", .double 1)]) ]

/-- The text of `responseWithVariables`. -/
def responseWithVariablesText : String :=
  "\x7b\"items\": [\x7b\"id\": \"a\"\x7d], \"variables\": \x7b\"k\": \"v\", \"n\": 1\x7d\x7d"

end ExternalExtensions

/-! ## Settings -/

namespace Qt

theorem find_filter_of_ne (l : List (String × QVariant)) (k key : String) (h : key ≠ k) :
    List.find? (fun kv => kv.1 == key) (l.filter (fun kv => !(kv.1 == k)))
      = List.find? (fun kv => kv.1 == key) l := by
  induction l with
  | nil => rfl
  | cons a l ih =>
    obtain ⟨ak, av⟩ := a
    by_cases ha : ak = k
    · subst ha
      have hne : (ak == key) = false := by simpa using fun h' => h h'.symm
      simp [List.filter_cons, List.find?_cons, hne, ih]
    · have hk : (ak == k) = false := by simpa using ha
      by_cases hkey : ak = key
      · subst hkey
        simp [List.filter_cons, List.find?_cons, hk]
      · have hkey2 : (ak == key) = false := by simpa using hkey
        simp [List.filter_cons, List.find?_cons, hk, hkey2, ih]

theorem value_setValue_self (s : QSettings) (k : String) (v : QVariant) :
    QSettings.value (QSettings.setValue s k v) k = some v := by
  simp [QSettings.setValue, QSettings.value]

theorem value_setValue_of_ne (s : QSettings) (k key : String) (v : QVariant) (h : key ≠ k) :
    QSettings.value (QSettings.setValue s k v) key = QSettings.value s key := by
  have hne : (k == key) = false := by simpa using fun h' => h h'.symm
  simp only [QSettings.setValue, QSettings.value, List.find?_cons, hne]
  rw [find_filter_of_ne s k key h]

end Qt

/-! ## The bookmark indexer -/

namespace FirefoxBookmarks

open Core Qt

theorem foldl_add_items (l : List StandardIndexItem) (ix : OfflineIndex) :
    (l.foldl OfflineIndex.add ix).items = ix.items ++ l := by
  induction l generalizing ix with
  | nil => simp
  | cons a l ih => simp [List.foldl_cons, ih, OfflineIndex.add]

theorem startIndexing_of_running (x : Extension) (h : x.d.futureWatcher.running = true) :
    startIndexing x = x := by
  simp [startIndexing, h]

theorem startIndexing_inv (x : Extension) (h : InFlightInv x) : InFlightInv (startIndexing x) := by
  unfold InFlightInv at *
  unfold startIndexing
  by_cases hr : x.d.futureWatcher.running = true
  · simpa [hr] using h
  · simp [hr] at h ⊢
    exact h

theorem finishIndexing_inv (x : Extension) (h : InFlightInv x) : InFlightInv (finishIndexing x) := by
  unfold InFlightInv at *
  simpa [finishIndexing] using h

theorem workerFinished_inv (env : Env) (db : Database) (x : Extension) (h : InFlightInv x) :
    InFlightInv (workerFinished env db x) := by
  unfold InFlightInv at *
  unfold workerFinished
  by_cases hr : x.d.futureWatcher.running = true
  · simp [hr] at h ⊢
    simp [h]
  · simpa [hr] using h

theorem deliverFinished_inv (x : Extension) (h : InFlightInv x) :
    InFlightInv (deliverFinished x) := by
  unfold deliverFinished
  by_cases hp : x.d.futureWatcher.finishedPending = true
  · simp only [hp, if_true]
    split
    · apply finishIndexing_inv
      unfold InFlightInv at *
      simpa using h
    · unfold InFlightInv at *
      simpa using h
  · simpa [hp] using h

theorem inv_of_same (x y : Extension) (h1 : y.rebuildsInFlight = x.rebuildsInFlight)
    (h2 : y.d.futureWatcher.running = x.d.futureWatcher.running) (h : InFlightInv x) :
    InFlightInv y := by
  unfold InFlightInv at *
  rw [h1, h2]
  exact h

theorem setProfile_inv (env : Env) (ini : QSettings) (x : Extension) (p : String)
    (h : InFlightInv x) : InFlightInv (setProfile env ini x p) := by
  unfold setProfile
  simp only []
  split
  · exact inv_of_same x _ rfl rfl h
  · split
    · exact inv_of_same x _ rfl rfl h
    · exact inv_of_same _ _ rfl rfl (startIndexing_inv _ (inv_of_same x _ rfl rfl h))

theorem changeFuzzyness_inv (x : Extension) (b : Bool) (h : InFlightInv x) :
    InFlightInv (changeFuzzyness x b) :=
  inv_of_same x _ rfl rfl h

theorem changeOpenPolicy_inv (x : Extension) (b : Bool) (h : InFlightInv x) :
    InFlightInv (changeOpenPolicy x b) :=
  startIndexing_inv _ (inv_of_same x _ rfl rfl h)

theorem step_inv (env : Env) (x : Extension) (e : Event) (h : InFlightInv x) :
    InFlightInv (step env x e) := by
  cases e with
  | timeout => exact startIndexing_inv x h
  | setProfile ini p => exact setProfile_inv env ini x p h
  | changeFuzzyness b => exact changeFuzzyness_inv x b h
  | changeOpenPolicy b => exact changeOpenPolicy_inv x b h
  | workerFinished db => exact workerFinished_inv env db x h
  | deliverFinished => exact deliverFinished_inv x h

theorem reachable_inv (env : Env) (x : Extension) (h : Reachable env x) : InFlightInv x := by
  induction h with
  | init profile fuzzy openWithFirefox exe iniPath settings => rfl
  | next x e _ ih => exact step_inv env x e ih

/-- C1. While a rebuild is running, `startIndexing` returns the state it was given: no second
rebuild is started, nothing is queued, no status is emitted and every field keeps its value.
Hence in every state reachable from a constructed extension at most one rebuild is in
flight. -/
theorem startIndexing_noop_while_running (env : Env) :
    (∀ x : Extension, x.d.futureWatcher.running = true → startIndexing x = x) ∧
    (∀ x : Extension, Reachable env x → x.rebuildsInFlight ≤ 1) := by
  refine ⟨startIndexing_of_running, fun x hx => ?_⟩
  have h := reachable_inv env x hx
  unfold InFlightInv at h
  rw [h]
  split <;> omega

/-- C1 at concrete states: a running extension that is asked again, and the state reached
by a timeout followed by a change of the open policy. -/
theorem startIndexing_noop_while_running_witness :
    startIndexing (startIndexing holdingOne) = startIndexing holdingOne ∧
    (step sampleEnv (step sampleEnv (constructed "p" false false "firefox" "profiles.ini" [])
      Event.timeout) (Event.changeOpenPolicy true)).rebuildsInFlight ≤ 1 :=
  ⟨(startIndexing_noop_while_running sampleEnv).1 (startIndexing holdingOne) rfl,
   (startIndexing_noop_while_running sampleEnv).2 _
     (Reachable.next _ _ (Reachable.next _ _ (Reachable.init "p" false false "firefox" "profiles.ini" [])))⟩

theorem rebuild_of_idle (env : Env) (db : Database) (x : Extension)
    (h : x.d.futureWatcher.running = false) :
    rebuild env db x =
      finishIndexing
        { x with
          d := { x.d with
            futureWatcher := { running := false, result := indexFirefoxBookmarks env x.d db,
                               finishedPending := false, connected := true } }
          rebuildsInFlight := x.rebuildsInFlight + 1 - 1
          statusInfo := x.statusInfo ++ ["Indexing bookmarks ..."] } := by
  simp [rebuild, startIndexing, workerFinished, deliverFinished, h, indexFirefoxBookmarks]

/-- C2, refuted on a concrete state: an idle extension holds the generation `[sampleItem]`;
a rebuild whose database cannot be opened completes, and afterwards neither the stored item
list nor the offline index holds that generation (both are empty). -/
theorem failed_rebuild_drops_generation :
    holdingOne.d.futureWatcher.running = false ∧
    holdingOne.d.index = [sampleItem] ∧
    holdingOne.d.offlineIndex.items = [sampleItem] ∧
    (rebuild sampleEnv Database.cannotOpen holdingOne).d.index ≠ holdingOne.d.index ∧
    (rebuild sampleEnv Database.cannotOpen holdingOne).d.offlineIndex.items
      ≠ holdingOne.d.offlineIndex.items ∧
    (rebuild sampleEnv Database.cannotOpen holdingOne).d.index = [] ∧
    (rebuild sampleEnv Database.cannotOpen holdingOne).d.offlineIndex.items = [] := by
  refine ⟨rfl, rfl, rfl, ?_, ?_, ?_, ?_⟩ <;>
    simp [rebuild_of_idle, holdingOne, finishIndexing, indexFirefoxBookmarks,
      foldl_add_items, OfflineIndex.clear]

/-- C2 as the code has it: when a rebuild is started on an idle extension and the item source
fails (the database cannot be opened, or the query fails), then after `finishIndexing` has
run the stored item list and the offline index are both empty, whatever generation was
held before. -/
theorem failed_rebuild_publishes_empty (env : Env) (x : Extension) (db : Database)
    (hidle : x.d.futureWatcher.running = false)
    (hfail : db = Database.cannotOpen ∨ db = Database.queryFails) :
    (rebuild env db x).d.index = [] ∧
    (rebuild env db x).d.offlineIndex.items = [] := by
  rw [rebuild_of_idle env db x hidle]
  rcases hfail with h | h <;> subst h <;>
    simp [finishIndexing, indexFirefoxBookmarks, OfflineIndex.clear]

/-- C2 as the code has it, at the state holding `[sampleItem]` with a failing query. -/
theorem failed_rebuild_publishes_empty_witness :
    (rebuild sampleEnv Database.queryFails holdingOne).d.index = [] ∧
    (rebuild sampleEnv Database.queryFails holdingOne).d.offlineIndex.items = [] :=
  failed_rebuild_publishes_empty sampleEnv holdingOne Database.queryFails rfl (Or.inr rfl)

/-- C3. Whatever the index held before, and for every item list `L` that the finished future
returns, `finishIndexing` leaves the offline index with exactly the items of `L` in the order
of `L` (nothing of the previous content survives the `clear`), stores `L` as the item list,
and emits the status that reports the length of `L`. -/
theorem finishIndexing_publishes_result (x : Extension) :
    (finishIndexing x).d.offlineIndex.items = x.d.futureWatcher.result ∧
    (finishIndexing x).d.index = x.d.futureWatcher.result ∧
    (finishIndexing x).statusInfo
      = x.statusInfo ++ [argNat x.d.futureWatcher.result.length ++ " bookmarks indexed."] := by
  simp [finishIndexing, foldl_add_items, OfflineIndex.clear]

/-- C5. `changeFuzzyness b` sets the fuzzy flag of the offline index to `b`, stores `b` under
the key `fuzzy` of the extension's settings group, and leaves everything else as it was: the
indexed items, the stored item list, the profile, the open policy, the future watcher (so no
rebuild is started), the rebuild count, the emitted statuses and every other setting. -/
theorem changeFuzzyness_only_sets_flag (x : Extension) (b : Bool) :
    (changeFuzzyness x b).d.offlineIndex.fuzzy = b ∧
    (changeFuzzyness x b).settings.value (extensionId ++ "/" ++ CFG_FUZZY) = some (QVariant.bool b) ∧
    (∀ key : String, key ≠ extensionId ++ "/" ++ CFG_FUZZY →
      (changeFuzzyness x b).settings.value key = x.settings.value key) ∧
    (changeFuzzyness x b).d.offlineIndex.items = x.d.offlineIndex.items ∧
    (changeFuzzyness x b).d.index = x.d.index ∧
    (changeFuzzyness x b).d.currentProfileId = x.d.currentProfileId ∧
    (changeFuzzyness x b).d.openWithFirefox = x.d.openWithFirefox ∧
    (changeFuzzyness x b).d.futureWatcher = x.d.futureWatcher ∧
    (changeFuzzyness x b).rebuildsInFlight = x.rebuildsInFlight ∧
    (changeFuzzyness x b).statusInfo = x.statusInfo ∧
    (changeFuzzyness x b).databaseName = x.databaseName := by
  refine ⟨rfl, ?_, ?_, rfl, rfl, rfl, rfl, rfl, rfl, rfl, rfl⟩
  · simp [changeFuzzyness, QSettings.setValue, QSettings.value]
  · intro key hkey
    exact Qt.value_setValue_of_ne x.settings _ key _ hkey

/-- C5 at the state holding `[sampleItem]`: the flag is set, and the setting "other" is as
before. -/
theorem changeFuzzyness_only_sets_flag_witness :
    (changeFuzzyness holdingOne true).d.offlineIndex.fuzzy = true ∧
    (changeFuzzyness holdingOne true).settings.value "other" = holdingOne.settings.value "other" :=
  ⟨(changeFuzzyness_only_sets_flag holdingOne true).1,
   (changeFuzzyness_only_sets_flag holdingOne true).2.2.1 "other" (by decide)⟩

/-- C6. The matches that `handleQuery` adds are the items returned by the search of the
offline index (called with the lower-cased term), one match per item in the same order, each
with score 0; the matches the query held before stay in front. -/
theorem handleQuery_adds_search_results (env : Env) (x : Extension) (query : Query) :
    Query.added query (handleQuery env x query)
      = (env.search x.d.offlineIndex (env.toLower query.searchTerm)).map
          (fun item => (Item.standardIndexItem item, (0 : Int))) ∧
    (handleQuery env x query).matchList.take query.matchList.length = query.matchList := by
  simp [handleQuery, Query.added, Query.addMatches]

/-- C7. Two search terms with the same lower-cased form make `handleQuery` add the same
sequence of matches, on every state of the index. -/
theorem handleQuery_case_insensitive (env : Env) (x : Extension) (q1 q2 : Query)
    (h : env.toLower q1.searchTerm = env.toLower q2.searchTerm) :
    Query.added q1 (handleQuery env x q1) = Query.added q2 (handleQuery env x q2) := by
  simp [handleQuery, Query.added, Query.addMatches, h]

/-- C7 for the terms "Exa" and "eXA" on the index holding `sampleItem`. -/
theorem handleQuery_case_insensitive_witness :
    Query.added { searchTerm := "Exa" } (handleQuery sampleEnv holdingOne { searchTerm := "Exa" })
      = Query.added { searchTerm := "eXA" }
          (handleQuery sampleEnv holdingOne { searchTerm := "eXA" }) :=
  handleQuery_case_insensitive sampleEnv holdingOne { searchTerm := "Exa" }
    { searchTerm := "eXA" } (by decide)

theorem defaultProfile_eq_first (profilesIni : QSettings) (currentProfileId first : String)
    (rest : List String) (hmiss : profilesIni.contains currentProfileId = false)
    (hids : childGroups profilesIni = first :: rest) :
    defaultProfile profilesIni currentProfileId = some first := by
  simp [defaultProfile, hmiss, hids, assigned]

/-- C11, evaluated where the code departs from it: no profile id is persisted, and
`profiles.ini` lists "Profile0" without a "Default" entry and then "Profile1" with
"Default" set to 1.  The constructor ends with "Profile0", the first listed profile, as
the current profile, not with the profile marked as default. -/
theorem constructor_takes_first_profile :
    sampleIni.contains "" = false ∧
    childGroups sampleIni = ["Profile0", "Profile1"] ∧
    sampleIni.contains "Profile0/Default" = false ∧
    (sampleIni.value "Profile1/Default").map QVariant.toBool = some true ∧
    defaultProfile sampleIni "" = some "Profile0" ∧
    (∃ x, Extension.new sampleEnv sampleInstallation = .ok x ∧
      x.d.currentProfileId = "Profile0") := by
  refine ⟨by decide, by decide, by decide, by decide, by decide, ?_⟩
  exact ⟨_, rfl, by decide⟩

theorem mem_indexFirefoxBookmarks {env : Env} {d : FirefoxBookmarksPrivate} {db : Database}
    {item : StandardIndexItem} (h : item ∈ indexFirefoxBookmarks env d db) :
    ∃ r : BookmarkRow, item = bookmarkItem env d.openWithFirefox (bookmarkIcon env) r := by
  cases db with
  | cannotOpen => simp [indexFirefoxBookmarks] at h
  | queryFails => simp [indexFirefoxBookmarks] at h
  | rows rs =>
    simp only [indexFirefoxBookmarks, List.mem_map] at h
    obtain ⟨r, _, hr⟩ := h
    exact ⟨r, hr.symm⟩

/-- C12. Every item that `indexFirefoxBookmarks` produces carries exactly three actions, and
their labels are "Open in firefox", "Open in default browser", "Copy url to clipboard" when
`openWithFirefox` is set, and "Open in default browser", "Open in firefox", "Copy url to
clipboard" otherwise. -/
theorem bookmark_actions_follow_open_policy (env : Env) (d : FirefoxBookmarksPrivate)
    (db : Database) (item : StandardIndexItem) (h : item ∈ indexFirefoxBookmarks env d db) :
    item.actions.length = 3 ∧
    item.actions.map (fun a => a.text)
      = if d.openWithFirefox then
          ["Open in firefox", "Open in default browser", "Copy url to clipboard"]
        else ["Open in default browser", "Open in firefox", "Copy url to clipboard"] := by
  obtain ⟨r, rfl⟩ := mem_indexFirefoxBookmarks h
  cases hp : d.openWithFirefox <;> simp [bookmarkItem]

/-- C12 for the item built from `sampleRow` when firefox is preferred. -/
theorem bookmark_actions_follow_open_policy_witness :
    (bookmarkItem sampleEnv true ":favicon" sampleRow).actions.length = 3 ∧
    (bookmarkItem sampleEnv true ":favicon" sampleRow).actions.map (fun a => a.text)
      = if ({ openWithFirefox := true } : FirefoxBookmarksPrivate).openWithFirefox then
          ["Open in firefox", "Open in default browser", "Copy url to clipboard"]
        else ["Open in default browser", "Open in firefox", "Copy url to clipboard"] :=
  bookmark_actions_follow_open_policy sampleEnv { openWithFirefox := true }
    (Database.rows [sampleRow]) (bookmarkItem sampleEnv true ":favicon" sampleRow) (by decide)

/-- C13. Every item that `indexFirefoxBookmarks` produces has exactly three index keywords:
the title with weight 65535, the host-name fragment of the url with weight 32767, and a third
one with weight 16383.  The title outweighs the host fragment, which outweighs the third, and
every weight is below 2^16. -/
theorem bookmark_keywords_weighted (env : Env) (d : FirefoxBookmarksPrivate) (db : Database)
    (item : StandardIndexItem) (h : item ∈ indexFirefoxBookmarks env d db) :
    ∃ k1 k2 k3 : WeightedKeyword,
      item.indexKeywords = [k1, k2, k3] ∧
      k1.keyword = item.text ∧ k1.weight = 65535 ∧
      k2.keyword = left (env.urlHost item.subtext)
        (((env.urlHost item.subtext).length : Int)
          - ((env.topLevelDomain item.subtext).length : Int)) ∧
      k2.weight = 32767 ∧
      k3.weight = 16383 ∧
      k3.weight < k2.weight ∧ k2.weight < k1.weight ∧
      ∀ k ∈ item.indexKeywords, k.weight < 2 ^ 16 := by
  obtain ⟨r, rfl⟩ := mem_indexFirefoxBookmarks h
  have h4 : USHRT_MAX / 4 < USHRT_MAX / 2 := by decide
  have h2 : USHRT_MAX / 2 < USHRT_MAX := by decide
  have h1 : USHRT_MAX < 2 ^ 16 := by decide
  refine ⟨_, _, _, rfl, rfl, rfl, rfl, rfl, rfl, h4, h2, ?_⟩
  intro k hk
  simp only [bookmarkItem, List.mem_cons, List.mem_singleton, List.not_mem_nil, or_false] at hk
  rcases hk with rfl | rfl | rfl
  · exact h1
  · exact h2.trans h1
  · exact h4.trans (h2.trans h1)

/-- C13 for the item built from `sampleRow`. -/
theorem bookmark_keywords_weighted_witness :
    ∃ k1 k2 k3 : WeightedKeyword,
      sampleItem.indexKeywords = [k1, k2, k3] ∧
      k1.keyword = sampleItem.text ∧ k1.weight = 65535 ∧
      k2.keyword = left (sampleEnv.urlHost sampleItem.subtext)
        (((sampleEnv.urlHost sampleItem.subtext).length : Int)
          - ((sampleEnv.topLevelDomain sampleItem.subtext).length : Int)) ∧
      k2.weight = 32767 ∧
      k3.weight = 16383 ∧
      k3.weight < k2.weight ∧ k2.weight < k1.weight ∧
      ∀ k ∈ sampleItem.indexKeywords, k.weight < 2 ^ 16 :=
  bookmark_keywords_weighted sampleEnv {} (Database.rows [sampleRow]) sampleItem (by decide)

/-- C14, refuted on a concrete state: on the extension holding `[sampleItem]`, a rebuild
whose database cannot be opened and one whose query fails emit the same statuses as a
successful rebuild that finds no bookmark; the status at completion is "0 bookmarks
indexed." in all three. -/
theorem failed_rebuild_status_not_distinct :
    (rebuild sampleEnv Database.cannotOpen holdingOne).statusInfo
      = (rebuild sampleEnv (Database.rows []) holdingOne).statusInfo ∧
    (rebuild sampleEnv Database.queryFails holdingOne).statusInfo
      = (rebuild sampleEnv (Database.rows []) holdingOne).statusInfo ∧
    (rebuild sampleEnv Database.cannotOpen holdingOne).statusInfo.getLast?
      = some "0 bookmarks indexed." ∧
    (rebuild sampleEnv (Database.rows []) holdingOne).statusInfo.getLast?
      = some "0 bookmarks indexed." := by
  refine ⟨rfl, rfl, ?_, ?_⟩ <;> decide

/-- C14 as the code has it: when a rebuild is started on an idle extension and the item
source fails (the database cannot be opened, or the query fails), `indexFirefoxBookmarks`
returns the empty list instead of raising an error, and the rebuild emits "Indexing
bookmarks ..." followed at completion by "0 bookmarks indexed.", which are the statuses of
a successful rebuild that found no bookmark. -/
theorem failed_rebuild_reports_zero (env : Env) (x : Extension) (db : Database)
    (hidle : x.d.futureWatcher.running = false)
    (hfail : db = Database.cannotOpen ∨ db = Database.queryFails) :
    indexFirefoxBookmarks env x.d db = [] ∧
    (rebuild env db x).statusInfo
      = x.statusInfo ++ ["Indexing bookmarks ...", "0 bookmarks indexed."] ∧
    (rebuild env db x).statusInfo = (rebuild env (Database.rows []) x).statusInfo := by
  rw [rebuild_of_idle env db x hidle, rebuild_of_idle env (Database.rows []) x hidle]
  have hzero : argNat 0 ++ " bookmarks indexed." = "0 bookmarks indexed." := by decide
  rcases hfail with h | h <;> subst h <;>
    simp [finishIndexing, indexFirefoxBookmarks, hzero]

/-- C14 as the code has it, at the state holding `[sampleItem]` with a failing query. -/
theorem failed_rebuild_reports_zero_witness :
    indexFirefoxBookmarks sampleEnv holdingOne.d Database.queryFails = [] ∧
    (rebuild sampleEnv Database.queryFails holdingOne).statusInfo
      = holdingOne.statusInfo ++ ["Indexing bookmarks ...", "0 bookmarks indexed."] ∧
    (rebuild sampleEnv Database.queryFails holdingOne).statusInfo
      = (rebuild sampleEnv (Database.rows []) holdingOne).statusInfo :=
  failed_rebuild_reports_zero sampleEnv holdingOne Database.queryFails rfl (Or.inr rfl)

theorem startIndexing_offlineIndex (x : Extension) :
    (startIndexing x).d.offlineIndex = x.d.offlineIndex := by
  unfold startIndexing
  split <;> rfl

theorem setProfile_offlineIndex (env : Env) (ini : QSettings) (x : Extension) (p : String) :
    (setProfile env ini x p).d.offlineIndex = x.d.offlineIndex := by
  unfold setProfile
  simp only []
  split
  · rfl
  · split
    · rfl
    · exact startIndexing_offlineIndex _

/-- C15. When the constructor gets through (the database driver is usable, firefox and a
`profiles.ini` are found), the fuzzy flag of the offline index is the value persisted under
the key `fuzzy` of the extension's settings group when that key is present, and false when
it is absent. -/
theorem constructor_loads_fuzzy (env : Env) (m : Installation)
    (hdb : m.dbValid = true) (htr : m.dbTransactions = true)
    (hexe : m.firefoxExecutable.isEmpty = false)
    (hini : m.profilesIniHome.isEmpty = false ∨ m.profilesIniData.isEmpty = false) :
    ∃ x, Extension.new env m = .ok x ∧
      x.d.offlineIndex.fuzzy
        = match m.settings.value (extensionId ++ "/" ++ CFG_FUZZY) with
          | some v => v.toBool
          | none => false := by
  have hpath : (if m.profilesIniHome.isEmpty then m.profilesIniData
      else m.profilesIniHome).isEmpty = false := by
    cases hh : m.profilesIniHome.isEmpty
    · simpa using hh
    · rcases hini with h | h
      · rw [hh] at h
        cases h
      · simpa using h
  refine ⟨_, by simp only [Extension.new, hdb, htr, hexe, hpath]; rfl, ?_⟩
  rw [setProfile_offlineIndex]
  cases m.settings.value (extensionId ++ "/" ++ CFG_FUZZY) <;> rfl

/-- C15 on the sample machine with the setting `fuzzy` persisted as true. -/
theorem constructor_loads_fuzzy_witness :
    ∃ x, Extension.new sampleEnv
        { sampleInstallation with
          settings := [(extensionId ++ "/" ++ CFG_FUZZY, QVariant.bool true)] } = .ok x ∧
      x.d.offlineIndex.fuzzy
        = match QSettings.value [(extensionId ++ "/" ++ CFG_FUZZY, QVariant.bool true)]
            (extensionId ++ "/" ++ CFG_FUZZY) with
          | some v => v.toBool
          | none => false :=
  constructor_loads_fuzzy sampleEnv
    { sampleInstallation with
      settings := [(extensionId ++ "/" ++ CFG_FUZZY, QVariant.bool true)] }
    rfl rfl rfl (Or.inl rfl)

/-- C19, evaluated where the code departs from it: for the row with url "example.org" and
parent folder "toolbar", the keyword weighted `USHRT_MAX / 4` of the produced item is the
url, not the name of the parent folder. -/
theorem third_keyword_is_url :
    sampleRow.url = "example.org" ∧
    sampleRow.parent = "toolbar" ∧
    (indexFirefoxBookmarks sampleEnv {} (Database.rows [sampleRow])).map
        (fun item => item.indexKeywords.drop 2)
      = [[⟨"example.org", USHRT_MAX / 4⟩]] := by
  refine ⟨rfl, rfl, ?_⟩
  decide

end FirefoxBookmarks

/-! ## External extensions -/

namespace ExternalExtensions

open Core Qt

theorem runProcess_of_exit_zero (env : Host) (path : String) (vars : Variables) (out : String)
    (h : env.run path vars = ⟨ExitStatus.NormalExit, 0, out⟩) :
    runProcess env path vars = .ok out := by
  simp [runProcess, h]

theorem out_nonempty_of_object (env : Host) (out : String) (o : QJsonObject)
    (h : env.fromJson out = QJsonDocument.ofObject o) : out.isEmpty = false := by
  by_cases he : out = ""
  · subst he
    rw [env.fromJson_empty] at h
    cases h
  · cases hb : out.isEmpty
    · rfl
    · exact absurd (by simpa [String.isEmpty_iff] using hb) he

theorem parseJsonObject_of_object (env : Host) (out : String) (o : QJsonObject)
    (h : env.fromJson out = QJsonDocument.ofObject o) :
    parseJsonObject env out
      = if o.isEmpty then .error "Expected json object, but received an array." else .ok o := by
  unfold parseJsonObject
  rw [h]
  rfl

theorem saveVariables_without_variables (o : QJsonObject) (vars : Variables) (e : String)
    (h : o.contains "variables" = false) :
    saveVariables o vars e = ⟨true, o, [], e⟩ := by
  simp [saveVariables, h]

theorem contains_of_find {o : QJsonObject} {key : String} {v : QJsonValue}
    (h : o.find key = some v) : o.contains key = true := by
  simp [QJsonObject.contains, h]

theorem subscript_of_find {o : QJsonObject} {key : String} {v : QJsonValue}
    (h : o.find key = some v) : o.subscript key = v := by
  simp [QJsonObject.subscript, h]

theorem toString_subscript (o : QJsonObject) (key : String) :
    (o.subscript key).toString = stringMember o key := by
  unfold QJsonObject.subscript stringMember
  cases h : QJsonObject.find o key with
  | none => rfl
  | some v => cases v <;> rfl

theorem handleQuery_of_items (env : Host) (x : ExternalExtension) (query : Query) (out : String)
    (o : QJsonObject) (items : QJsonArray)
    (hrun : env.run x.path_
      ((x.variables_.assign "ALBERT_OP" "QUERY").assign "ALBERT_QUERY" query.searchTerm)
        = ⟨ExitStatus.NormalExit, 0, out⟩)
    (hjson : env.fromJson out = QJsonDocument.ofObject o)
    (hitems : o.find "items" = some (QJsonValue.array items))
    (hvars : o.contains "variables" = false) :
    (handleQuery env x query).2 = query.addMatches
      (items.filterMap (fun itemValue => (buildItem env itemValue).map
        (fun standardItem => (Item.standardItem standardItem, (0 : Int))))) := by
  have hne : o.isEmpty = false := by
    cases o with
    | nil => simp [QJsonObject.find] at hitems
    | cons a l => rfl
  unfold handleQuery
  simp only [runProcess_of_exit_zero env _ _ out hrun, parseJsonObject_of_object env out o hjson,
    hne, out_nonempty_of_object env out o hjson, Bool.false_eq_true, if_false,
    saveVariables_without_variables _ _ _ hvars, contains_of_find hitems,
    subscript_of_find hitems, QJsonValue.isArray, QJsonValue.toArray, Bool.not_true]

/-- C8. When the program exits normally with code 0 and prints a JSON object that has an
"items" array and no "variables" member, `handleQuery` adds one match for every element of
the array that is a JSON object, in array order, carrying the strings stored under "id",
"name" and "description" of that element and score 0; every element that is not an object is
skipped and the elements after it are still handled.  The matches the query held before stay
in front. -/
theorem handleQuery_skips_malformed_items (env : Host) (x : ExternalExtension) (query : Query)
    (out : String) (o : QJsonObject) (items : QJsonArray)
    (hrun : env.run x.path_
      ((x.variables_.assign "ALBERT_OP" "QUERY").assign "ALBERT_QUERY" query.searchTerm)
        = ⟨ExitStatus.NormalExit, 0, out⟩)
    (hjson : env.fromJson out = QJsonDocument.ofObject o)
    (hitems : o.find "items" = some (QJsonValue.array items))
    (hvars : o.contains "variables" = false) :
    (Query.added query (handleQuery env x query).2).map
        (fun m => (m.1.id, m.1.text, m.1.subtext, m.2))
      = items.filterMap (fun itemValue =>
          match itemValue with
          | QJsonValue.object e =>
            some (stringMember e "id", stringMember e "name", stringMember e "description", (0 : Int))
          | _ => none) ∧
    (handleQuery env x query).2.matchList.take query.matchList.length = query.matchList := by
  rw [handleQuery_of_items env x query out o items hrun hjson hitems hvars]
  refine ⟨?_, by simp [Query.addMatches]⟩
  simp only [Query.added, Query.addMatches, List.drop_left, List.map_filterMap]
  congr 1
  funext itemValue
  cases itemValue <;>
    simp [buildItem, QJsonValue.isObject, QJsonValue.toObject, Item.id, Item.text, Item.subtext,
      toString_subscript]

/-- C8 on the sample program "items", whose array holds an object, the number 7 and a second
object: two matches are added, for "a" and for "b". -/
theorem handleQuery_skips_malformed_items_witness :
    (Query.added { searchTerm := "x" }
        (handleQuery sampleHost { id := "ext", path_ := "items" } { searchTerm := "x" }).2).map
        (fun m => (m.1.id, m.1.text, m.1.subtext, m.2))
      = [("a", "A", "first", 0), ("b", "", "", 0)] ∧
    (handleQuery sampleHost { id := "ext", path_ := "items" } { searchTerm := "x" }).2.matchList.take 0
      = [] :=
  handleQuery_skips_malformed_items sampleHost { id := "ext", path_ := "items" }
    { searchTerm := "x" } (sampleOutput "items")
    [("items", .array [
      .object [("description", .string "first"), ("id", .string "a"), ("name", .string "A")],
      .double 7,
      .object [("id", .string "b")]])]
    [ .object [("description", .string "first"), ("id", .string "a"), ("name", .string "A")],
      .double 7,
      .object [("id", .string "b")]]
    rfl rfl rfl rfl

/-- C9, evaluated where the code departs from it: the sample program "variables" exits with
code 0 and prints an object whose only top-level member is "variables" (so it has no
top-level "items"); `handleQuery` nevertheless adds one match, built from the "items" array
found inside "variables". -/
theorem handleQuery_takes_items_from_variables :
    sampleHost.fromJson (sampleOutput "variables")
      = QJsonDocument.ofObject [("variables", .object [("items", .array [.object []])])] ∧
    QJsonObject.contains [("variables", QJsonValue.object [("items", .array [.object []])])] "items"
      = false ∧
    Query.added { searchTerm := "x" }
        (handleQuery sampleHost { id := "ext", path_ := "variables" } { searchTerm := "x" }).2
      = [(Item.standardItem { id := "", iconPath := ":unknown" }, 0)] := by
  refine ⟨rfl, rfl, ?_⟩
  rfl

theorem iid_ne_empty : ¬ ("" : String) = EXTERNAL_EXTENSION_IID := by decide

theorem getMetadata_ok_iff (env : Host) (path id out : String) (o : QJsonObject)
    (hrun : env.run path [("ALBERT_OP", "METADATA")] = ⟨ExitStatus.NormalExit, 0, out⟩)
    (hjson : env.fromJson out = QJsonDocument.ofObject o) :
    (∃ x, getMetadata env path id = .ok x)
      ↔ o.find "iid" = some (QJsonValue.string EXTERNAL_EXTENSION_IID) := by
  have hvars : Variables.assign [] "ALBERT_OP" "METADATA" = [("ALBERT_OP", "METADATA")] := rfl
  unfold getMetadata
  simp only [hvars, runProcess_of_exit_zero env _ _ out hrun,
    parseJsonObject_of_object env out o hjson]
  cases o with
  | nil => simp [QJsonObject.find]
  | cons a l =>
    simp only [List.isEmpty_cons, Bool.false_eq_true, if_false, QJsonObject.subscript]
    cases hfind : QJsonObject.find (a :: l) "iid" with
    | none => simp [QJsonValue.isUndefined, QJsonValue.toString, iid_ne_empty]
    | some v =>
      cases v with
      | string s =>
        by_cases hs : s = EXTERNAL_EXTENSION_IID
        · simp [QJsonValue.isUndefined, QJsonValue.toString, hs]
        · simp [QJsonValue.isUndefined, QJsonValue.toString, hs]
      | undefined => simp [QJsonValue.isUndefined]
      | _ => simp [QJsonValue.isUndefined, QJsonValue.toString, iid_ne_empty]

/-- C10. When the METADATA run exits normally with code 0 and its output parses to a JSON
object, the constructor gets past its metadata block exactly when the object has an "iid"
member that is the string "org.albert.extension.external/v2.0"; with a missing, non-string
or different "iid" the constructor ends in an error. -/
theorem metadata_requires_interface_id (env : Host) (path id out : String) (o : QJsonObject)
    (hrun : env.run path [("ALBERT_OP", "METADATA")] = ⟨ExitStatus.NormalExit, 0, out⟩)
    (hjson : env.fromJson out = QJsonDocument.ofObject o) :
    ((∃ x, getMetadata env path id = .ok x)
      ↔ o.find "iid" = some (QJsonValue.string "org.albert.extension.external/v2.0")) ∧
    (o.find "iid" ≠ some (QJsonValue.string "org.albert.extension.external/v2.0") →
      ∃ e, ExternalExtension.new env path id = .error e) := by
  have hiff := getMetadata_ok_iff env path id out o hrun hjson
  refine ⟨hiff, fun hno => ?_⟩
  unfold ExternalExtension.new
  cases hm : getMetadata env path id with
  | error e => exact ⟨e, rfl⟩
  | ok x => exact absurd (hiff.mp ⟨x, hm⟩) hno

/-- C10 on the sample program "metadata", whose object carries the interface id. -/
theorem metadata_requires_interface_id_witness :
    ((∃ x, getMetadata sampleHost "metadata" "ext" = .ok x)
      ↔ QJsonObject.find [("iid", QJsonValue.string "org.albert.extension.external/v2.0"),
          ("name", QJsonValue.string "Sample")] "iid"
        = some (QJsonValue.string "org.albert.extension.external/v2.0")) ∧
    (QJsonObject.find [("iid", QJsonValue.string "org.albert.extension.external/v2.0"),
          ("name", QJsonValue.string "Sample")] "iid"
        ≠ some (QJsonValue.string "org.albert.extension.external/v2.0") →
      ∃ e, ExternalExtension.new sampleHost "metadata" "ext" = .error e) :=
  metadata_requires_interface_id sampleHost "metadata" "ext" (sampleOutput "metadata")
    [("iid", .string "org.albert.extension.external/v2.0"), ("name", .string "Sample")] rfl rfl

/-- C16, evaluated where the code departs from it: the program prints an object whose
top-level "items" array holds one JSON object and which also has a "variables" object.
`handleQuery` stores the variables and then adds no match, because it looks for "items" in
the object that `saveVariables` left behind, the "variables" object. -/
theorem handleQuery_drops_items_beside_variables :
    QJsonObject.find responseWithVariables "items"
      = some (QJsonValue.array [QJsonValue.object [("id", QJsonValue.string "a")]]) ∧
    (saveVariables responseWithVariables [] "").object
      = [("k", QJsonValue.string "v"), ("n", QJsonValue.double 1)] ∧
    Query.added { searchTerm := "x" }
        (handleQuery (hostPrinting responseWithVariablesText (.ofObject responseWithVariables))
          { id := "ext", path_ := "prog" } { searchTerm := "x" }).2 = [] ∧
    (handleQuery (hostPrinting responseWithVariablesText (.ofObject responseWithVariables))
        { id := "ext", path_ := "prog" } { searchTerm := "x" }).1.variables_ = [("k", "v")] := by
  refine ⟨rfl, rfl, ?_, ?_⟩ <;> rfl

/-- C17, evaluated where the code departs from it: the bytes of the empty JSON object, a
valid document whose top level is an object, are rejected by `parseJsonObject` with the
message written for arrays. -/
theorem parseJsonObject_rejects_empty_object :
    (hostPrinting "\x7b\x7d" (QJsonDocument.ofObject [])).fromJson "\x7b\x7d"
      = QJsonDocument.ofObject [] ∧
    parseJsonObject (hostPrinting "\x7b\x7d" (QJsonDocument.ofObject [])) "\x7b\x7d"
      = .error "Expected json object, but received an array." := by
  refine ⟨rfl, rfl⟩

theorem emplace_of_fresh (m : Variables) (key value : String)
    (h : ∀ p ∈ m, p.1 ≠ key) : Variables.emplace m key value = m ++ [(key, value)] := by
  unfold Variables.emplace
  have hany : List.any m (fun kv => kv.1 == key) = false := by
    rw [List.any_eq_false]
    intro p hp
    simpa using h p hp
  simp [hany]

theorem foldl_emplace_strings (vo : QJsonObject) (acc : Variables)
    (hnd : (vo.map Prod.fst).Nodup)
    (hdis : ∀ kv ∈ vo, ∀ p ∈ acc, p.1 ≠ kv.1) :
    List.foldl
        (fun (m : Variables) (kv : String × QJsonValue) =>
          if kv.2.isString then m.emplace kv.1 kv.2.toString else m) acc vo
      = acc ++ stringMembers vo := by
  induction vo generalizing acc with
  | nil => simp [stringMembers]
  | cons kv rest ih =>
    obtain ⟨k, v⟩ := kv
    simp only [List.map_cons, List.nodup_cons, List.mem_map, not_exists, not_and] at hnd
    obtain ⟨hk, hrest⟩ := hnd
    have hdis_rest : ∀ kv ∈ rest, ∀ p ∈ acc, p.1 ≠ kv.1 :=
      fun kv hkv p hp => hdis kv (List.mem_cons_of_mem _ hkv) p hp
    rw [List.foldl_cons]
    cases v with
    | string s =>
      have hfresh : ∀ p ∈ acc, p.1 ≠ k :=
        fun p hp => hdis (k, .string s) (List.mem_cons_self _ _) p hp
      change List.foldl _ (Variables.emplace acc k s) rest = _
      rw [emplace_of_fresh acc k s hfresh, ih _ hrest]
      · simp [stringMembers]
      · intro kv hkv p hp
        rcases List.mem_append.mp hp with hp | hp
        · exact hdis_rest kv hkv p hp
        · simp only [List.mem_singleton] at hp
          subst hp
          exact fun heq => hk kv hkv heq.symm
    | _ =>
      change List.foldl _ acc rest = _
      rw [ih _ hrest hdis_rest]
      simp [stringMembers]

/-- C18. For every JSON object `o` (the keys of a "variables" object being distinct, as in
every `QJsonObject`) and every prior variables map, `saveVariables` returns false exactly
when `o` has a "variables" member that is not a JSON object; afterwards the map holds
exactly the members of `o["variables"]` whose value is a JSON string when that member is an
object, and is empty otherwise.  The prior entries are gone in every case. -/
theorem saveVariables_keeps_string_members (o : QJsonObject) (prior : Variables) (e : String)
    (hkeys : ∀ vo, o.find "variables" = some (QJsonValue.object vo) → (vo.map Prod.fst).Nodup) :
    ((saveVariables o prior e).ok = false
      ↔ ∃ v, o.find "variables" = some v ∧ v.isObject = false) ∧
    (saveVariables o prior e).vars
      = match o.find "variables" with
        | some (QJsonValue.object vo) => stringMembers vo
        | _ => [] := by
  unfold saveVariables
  cases hfind : QJsonObject.find o "variables" with
  | none => simp [QJsonObject.contains, hfind]
  | some v =>
    cases v with
    | object vo =>
      have h := foldl_emplace_strings vo [] (hkeys vo hfind) (by simp)
      simp only [List.nil_append] at h
      simp [QJsonObject.contains, QJsonObject.subscript, hfind, QJsonValue.isObject,
        QJsonValue.toObject, h]
    | _ => simp [QJsonObject.contains, QJsonObject.subscript, hfind, QJsonValue.isObject]

/-- C18 on `responseWithVariables` with a prior entry: the call succeeds, the string member
"k" is kept, the number "n" and the prior entry are gone. -/
theorem saveVariables_keeps_string_members_witness :
    ((saveVariables responseWithVariables [("ALBERT_OP", "QUERY")] "").ok = false
      ↔ ∃ v, QJsonObject.find responseWithVariables "variables" = some v ∧ v.isObject = false) ∧
    (saveVariables responseWithVariables [("ALBERT_OP", "QUERY")] "").vars
      = match QJsonObject.find responseWithVariables "variables" with
        | some (QJsonValue.object vo) => stringMembers vo
        | _ => [] :=
  saveVariables_keeps_string_members responseWithVariables [("ALBERT_OP", "QUERY")] ""
    (fun vo h => by
      have hvo : vo = [("k", QJsonValue.string "v"), ("n", QJsonValue.double 1)] := by
        have h2 : QJsonObject.find responseWithVariables "variables"
            = some (QJsonValue.object [("k", QJsonValue.string "v"), ("n", QJsonValue.double 1)]) := rfl
        rw [h2] at h
        injection h with h3
        injection h3 with h4
        exact h4.symm
      subst hvo
      decide)

end ExternalExtensions
